import Mathlib

/-!
Shallow embedding of the permission-evaluation and route-guarding layer of
the NKC-FE-AutoZalo dashboard.

The embedded source files:
* `src/hooks/useDynamicPermission.ts` — permission snapshot and dynamic evaluator;
* `src/hooks/usePermission.ts` — legacy evaluator;
* `src/middleware.ts` — route guard.

Conventions of the embedding:
* JavaScript truthiness of an optional string field is modelled by
  `optStrTruthy` (absent or `""` is falsy); of an optional boolean by
  `optBoolTruthy`; an array value is always truthy, so for an optional
  array field truthiness is `Option.isSome`.
* A JS `Map`/`Set` keeps insertion order, so the dedup helpers keep the
  first entry per key, in first-seen order.
* `Date.now()` (milliseconds) and the `exp` claim (seconds) are integers.
-/

namespace NKC

/-- A permission grant.  The evaluators read only `name` and `action`
(`src/hooks/useDynamicPermission.ts`, `src/hooks/usePermission.ts`); the
record's remaining fields, which the permission logic never inspects, are
abstracted as a single `other` field so that two grants may share
`(name, action)` while differing elsewhere. -/
structure Permission where
  name : String
  action : String
  other : Nat := 0
deriving DecidableEq

/-- A role descriptor `{name}` as carried on the user object. -/
structure Role where
  name : String
deriving DecidableEq

/-- A department descriptor `{slug, name}`. -/
structure Department where
  slug : String
  deptName : String := ""
deriving DecidableEq

/-- The user object held in the auth context: pre-flattened permissions,
role descriptors and department memberships.  A JS `undefined` array field
is observationally the empty list for every operation embedded here. -/
structure User where
  permissions : List Permission
  roles : List Role
  departments : List Department
deriving DecidableEq

/-- JS `String.prototype.startsWith`, computed on the character list so that
it reduces inside the kernel. -/
def strStartsWith (s pre : String) : Bool := pre.data.isPrefixOf s.data

/-- JS `String.prototype.endsWith`, computed on the character list. -/
def strEndsWith (s suf : String) : Bool := suf.data.isSuffixOf s.data

/-- Drop the first `n` characters of a string (the remainder of a matched
prefix), computed on the character list. -/
def strDrop (s : String) (n : Nat) : String := String.mk (s.data.drop n)

/-- Character count of a string. -/
def strLength (s : String) : Nat := s.data.length

/-- The `name:action` composite key used by both dedup sites. -/
def permKey (p : Permission) : String := p.name ++ ":" ++ p.action

/-- The `Map`-based dedup loop of `userPermissions` / `getUserPermissions`,
with `seen` the set of keys already in the map: a permission is kept iff its
key has not been seen, and insertion order is preserved. -/
def dedupeAux (seen : List String) : List Permission → List Permission
  | [] => []
  | p :: rest =>
    if seen.contains (permKey p) then dedupeAux seen rest
    else p :: dedupeAux (permKey p :: seen) rest

/-- Dedup of `user.permissions` by `name:action`, first entry per key kept,
first-seen order.  This identical loop appears verbatim in both
`useDynamicPermission.ts` (as `userPermissions`) and `usePermission.ts`
(as `getUserPermissions`). -/
def dedupePermissions (ps : List Permission) : List Permission := dedupeAux [] ps

/-- `useDynamicPermission.userPermissions`: `[]` for an absent user,
otherwise the deduped flatten of `user.permissions`. -/
def userPermissions (u : Option User) : List Permission :=
  match u with
  | none => []
  | some user => dedupePermissions user.permissions

/-- `useDynamicPermission.userRoles`: `user?.roles?.map(role => role.name) || []`. -/
def userRoles (u : Option User) : List String :=
  match u with
  | none => []
  | some user => user.roles.map (fun r => r.name)

/-- `useDynamicPermission.userDepartments`: `user?.departments || []`. -/
def userDepartments (u : Option User) : List Department :=
  match u with
  | none => []
  | some user => user.departments

/-- `useDynamicPermission.isAdmin`: `userRoles.includes("admin")`. -/
def isAdmin (u : Option User) : Bool := (userRoles u).contains "admin"

/-- `useDynamicPermission.isManager`: any role equals `manager` or starts
with `manager-`. -/
def isManager (u : Option User) : Bool :=
  (userRoles u).any (fun role => role == "manager" || strStartsWith role "manager-")

/-- The `DynamicPermissionCheck` interface: every field optional. -/
structure DynamicPermissionCheck where
  departmentSlug : Option String := none
  action : Option String := none
  requireAdmin : Option Bool := none
  requireManager : Option Bool := none
  requireSpecificRole : Option String := none
  requireAnyRole : Option (List String) := none
deriving DecidableEq

/-- JS truthiness of an optional string: absent and `""` are falsy. -/
def optStrTruthy : Option String → Bool
  | none => false
  | some s => s != ""

/-- JS truthiness of an optional boolean: absent and `false` are falsy. -/
def optBoolTruthy : Option Bool → Bool
  | none => false
  | some b => b

/-- `useDynamicPermission.checkDynamicPermission`, clause for clause:
no user → false; admin → true; each `require*` guard denies when its field
is truthy and unmet (a present `requireAnyRole` array is truthy even when
empty); with both `departmentSlug` and `action` truthy the deduped grants
are searched for an exact `(name, action)` match; with only
`departmentSlug` truthy, explicit membership or a role ending in `-<slug>`
allows; otherwise the default is allow. -/
def checkDynamicPermission (u : Option User) (check : DynamicPermissionCheck) : Bool :=
  match u with
  | none => false
  | some _ =>
    if isAdmin u then true
    else if optBoolTruthy check.requireAdmin && !(isAdmin u) then false
    else if optBoolTruthy check.requireManager && !(isManager u) then false
    else if optStrTruthy check.requireSpecificRole &&
            !((userRoles u).contains (check.requireSpecificRole.getD "")) then false
    else if check.requireAnyRole.isSome &&
            !((check.requireAnyRole.getD []).any
                (fun role => (userRoles u).contains role)) then false
    else if optStrTruthy check.departmentSlug && optStrTruthy check.action then
      (userPermissions u).any (fun p =>
        p.name == check.departmentSlug.getD "" && p.action == check.action.getD "")
    else if optStrTruthy check.departmentSlug && !(optStrTruthy check.action) then
      ((userDepartments u).any (fun d => d.slug == check.departmentSlug.getD "")) ||
      ((userRoles u).any (fun role => strEndsWith role ("-" ++ check.departmentSlug.getD "")))
    else true

/-- `usePermission.checkPermission`: no user → false; a role literally named
`admin` → true; otherwise the result is exactly `hasPermission`, a search of
the deduped grants for `(departmentSlug, action)`.  The `_hasRole` value is
computed in the source and never used, as here. -/
def checkPermission (u : Option User) (departmentSlug action : String) : Bool :=
  match u with
  | none => false
  | some user =>
    let isAdminHere := user.roles.any (fun r => r.name == "admin")
    if isAdminHere then true
    else
      let userRolesHere := user.roles.map (fun r => r.name)
      let requiredRoles := ["manager-" ++ departmentSlug, "user-" ++ departmentSlug]
      let _hasRole := userRolesHere.any (fun role => requiredRoles.contains role)
      let userPerms := dedupePermissions user.permissions
      let hasPermission := userPerms.any (fun p =>
        p.name == departmentSlug && p.action == action)
      hasPermission

/-- The regular expression `^(manager|user)-(.+)$` applied to a role name:
its second capture group (the text after the first literal prefix
`manager-` or `user-`) when the remainder is non-empty, `none` otherwise. -/
def roleDeptMatch (role : String) : Option String :=
  if strStartsWith role "manager-" && decide (8 < strLength role) then some (strDrop role 8)
  else if strStartsWith role "user-" && decide (5 < strLength role) then some (strDrop role 5)
  else none

/-- The `Set`-based dedup of `getAccessibleDepartments`: first occurrence of
each string kept, in insertion order (`seen` is the set's current content). -/
def dedupSeen (seen : List String) : List String → List String
  | [] => []
  | s :: rest =>
    if seen.contains s then dedupSeen seen rest
    else s :: dedupSeen (s :: seen) rest

/-- `useDynamicPermission.getAccessibleDepartments`: a `Set` filled first
with the explicit department slugs, then with the second capture group of
`^(manager|user)-(.+)$` over each role name, read back in insertion order. -/
def getAccessibleDepartments (u : Option User) : List String :=
  dedupSeen [] ((userDepartments u).map (fun d => d.slug) ++
                (userRoles u).filterMap roleDeptMatch)

/-- A navigation item `{title, url, roles?}` of the static route table
(`lib/nav-items`); `roles := none` means the item is open to any
authenticated session. -/
structure NavItem where
  title : String
  url : String
  roles : Option (List String) := none
deriving DecidableEq

/-- A navigation group `{title, items}`. -/
structure NavGroup where
  title : String
  items : List NavItem
deriving DecidableEq

/-- `middleware.hasRole`: some required role is among the user's roles. -/
def hasRole (uRoles requiredRoles : List String) : Bool :=
  requiredRoles.any (fun role => uRoles.contains role)

/-- Accessibility of one navigation item, as tested by both walks of the
route table: `!item.roles || hasRole(userRoles, item.roles)` (an empty
`roles` array is truthy in JS, so only an absent `roles` is open). -/
def itemOpen (uRoles : List String) (item : NavItem) : Bool :=
  match item.roles with
  | none => true
  | some rs => hasRole uRoles rs

/-- Inner loop of `getFirstAccessibleUrl` over the items of one group. -/
def firstAccessibleInItems (uRoles : List String) : List NavItem → Option String
  | [] => none
  | item :: rest =>
    if itemOpen uRoles item then some item.url
    else firstAccessibleInItems uRoles rest

/-- `middleware.getFirstAccessibleUrl`: the url of the first item, in group
order then item order, whose `roles` is absent or intersects the user's
roles; `none` when no item qualifies. -/
def getFirstAccessibleUrl (nav : List NavGroup) (uRoles : List String) : Option String :=
  match nav with
  | [] => none
  | g :: rest =>
    match firstAccessibleInItems uRoles g.items with
    | some u => some u
    | none => getFirstAccessibleUrl rest uRoles

/-- `middleware.isAccessible`: some item of the table has the given url and
is open to the user's roles. -/
def isAccessible (nav : List NavGroup) (uRoles : List String) (url : String) : Bool :=
  nav.any (fun g => g.items.any (fun item => item.url == url && itemOpen uRoles item))

/-- Every url of the route table: `navItems.flatMap(g => g.items.map(i => i.url))`. -/
def allNavUrls (nav : List NavGroup) : List String :=
  (nav.map (fun g => g.items.map (fun item => item.url))).flatten

/-- A JSON field of the decoded token payload, as far as the guard inspects
it: absent, a numeric value, or present with a non-numeric value. -/
inductive JsonField where
  | absent : JsonField
  | num : Int → JsonField
  | nonNum : JsonField
deriving DecidableEq

/-- The decoded JWT payload fields read by `middleware`: `exp`,
`roles` (`none` when absent or not an array, otherwise the mapped
`role.name || role` strings), and `zaloLinkStatus` (`some` exactly when the
payload carries a numeric value). -/
structure Payload where
  exp : JsonField := JsonField.absent
  roles : Option (List String) := none
  zaloLinkStatus : Option Int := none
deriving DecidableEq

/-- The access-token cookie as the guard sees it: missing, present but
failing `JSON.parse(base64UrlDecode(token.split(".")[1]))`, or decoded to a
payload. -/
inductive TokenState where
  | missing : TokenState
  | malformed : TokenState
  | decoded : Payload → TokenState
deriving DecidableEq

/-- The guard's `isValid` computation: stays `false` unless the token
decodes and `exp` is a truthy number with `exp > 0`, in which case it is
`Date.now() < exp * 1000`. -/
def tokenIsValid (nowMs : Int) (t : TokenState) : Bool :=
  match t with
  | TokenState.decoded p =>
    match p.exp with
    | JsonField.num n =>
      if n != 0 && decide (0 < n) then decide (nowMs < n * 1000) else false
    | _ => false
  | _ => false

/-- The guard's `userRoles` variable: `[]` unless the token decodes and the
payload carries a roles array. -/
def decodeRoles : TokenState → List String
  | TokenState.decoded p => p.roles.getD []
  | _ => []

/-- The guard's `zaloLinkStatus` variable: `0` unless the token decodes and
the payload carries a numeric `zaloLinkStatus`. -/
def decodeZls : TokenState → Int
  | TokenState.decoded p => p.zaloLinkStatus.getD 0
  | _ => 0

/-- The fixed account-linking path of the guard. -/
def zaloLinkPath : String := "/dashboard/link-account"

/-- JS truthiness of the `string | null` result of `getFirstAccessibleUrl`:
`if (firstUrl)` rejects both `null` and `""`. -/
def truthyUrl : Option String → Option String
  | some u => if u != "" then some u else none
  | none => none

/-- The four terminal outcomes of one run of the guard.  The refresh
exchange is a network call; its outcome is an input of the model
(`GuardEnv.refreshOk`), and a successful exchange continues the request
while also writing fresh cookies, which `nextWithRefreshedCookies` keeps
distinguishable from a plain continue. -/
inductive GuardDecision where
  | next : GuardDecision
  | nextWithRefreshedCookies : GuardDecision
  | redirect : String → GuardDecision
  | redirectLogin : GuardDecision
deriving DecidableEq

/-- One request as the guard sees it: the requested pathname, the
access-token cookie state, the current time in milliseconds, and whether
the refresh exchange would succeed (refresh-token cookie present, endpoint
reachable and ok, response carrying a truthy `access_token`). -/
structure GuardEnv where
  pathname : String
  token : TokenState
  nowMs : Int
  refreshOk : Bool
deriving DecidableEq

/-- `middleware`, branch for branch.  The blocks, in source order:
link-status override (`isValid && zaloLinkStatus === 2`); link-page
passthrough; landing redirect for `/`, `/login`, `/dashboard` (which falls
through when no accessible item exists — `if (firstUrl)`); public-path
passthrough (`publicPaths = ['/login']`); invalid-session recovery
(refresh, else redirect to login deleting both cookies); authorization
check over the route table; default continue. -/
def middleware (nav : List NavGroup) (env : GuardEnv) : GuardDecision :=
  let pathname := env.pathname
  let isValid := tokenIsValid env.nowMs env.token
  let uRoles := decodeRoles env.token
  let zls := decodeZls env.token
  if isValid && zls == 2 then
    if pathname != zaloLinkPath then GuardDecision.redirect zaloLinkPath
    else GuardDecision.next
  else if isValid && pathname == zaloLinkPath then GuardDecision.next
  else
    let landing :=
      if isValid && (pathname == "/" || pathname == "/login" || pathname == "/dashboard")
      then truthyUrl (getFirstAccessibleUrl nav uRoles)
      else none
    match landing with
    | some u => GuardDecision.redirect u
    | none =>
      if ["/login"].contains pathname then GuardDecision.next
      else if !isValid then
        if env.refreshOk then GuardDecision.nextWithRefreshedCookies
        else GuardDecision.redirectLogin
      else
        if (allNavUrls nav).contains pathname && !(isAccessible nav uRoles pathname) then
          match truthyUrl (getFirstAccessibleUrl nav uRoles) with
          | some u => GuardDecision.redirect u
          | none => GuardDecision.next
        else GuardDecision.next

/-- Concrete fixture: an admin user. -/
def wAdmin : User := { permissions := [], roles := [{ name := "admin" }], departments := [] }

/-- Concrete fixture: a non-admin user holding a duplicated `cong-no:read`
grant. -/
def wStaff : User :=
  { permissions := [{ name := "cong-no", action := "read", other := 0 },
                    { name := "cong-no", action := "read", other := 1 }],
    roles := [{ name := "staff" }],
    departments := [] }

/-- Concrete fixture: a non-admin user with no grants but an explicit
`cong-no` department membership. -/
def wStaffDept : User :=
  { permissions := [], roles := [{ name := "staff" }],
    departments := [{ slug := "cong-no", deptName := "Cong no" }] }

/-- Concrete fixture: a route table whose first item is open to everyone
and whose second is admin-only. -/
def navOpen : List NavGroup :=
  [{ title := "Thong ke",
     items := [{ title := "Home", url := "/statistic/debts", roles := none },
               { title := "Import", url := "/debts/import", roles := some ["admin"] }] }]

/-- Concrete fixture: a route table with only admin-only items. -/
def navClosed : List NavGroup :=
  [{ title := "Thong ke",
     items := [{ title := "Home", url := "/statistic/debts", roles := some ["admin"] },
               { title := "Import", url := "/debts/import", roles := some ["admin"] }] }]

theorem isAdmin_eq_true_iff (user : User) :
    isAdmin (some user) = true ↔ ∃ r ∈ user.roles, r.name = "admin" := by
  simp [isAdmin, userRoles]

theorem isAdmin_eq_false_iff (user : User) :
    isAdmin (some user) = false ↔ ¬∃ r ∈ user.roles, r.name = "admin" := by
  rw [← isAdmin_eq_true_iff user]
  exact ⟨fun h => by simp [h], fun h => by simpa using h⟩

/-- C1: for an authenticated user and a check carrying only a non-empty
`departmentSlug` and a non-empty `action` (a JS-truthy pair; all four
`require*` fields absent), `checkDynamicPermission` allows exactly when the
deduplicated grant set has an entry with that `(name, action)` or the user
holds the literal `admin` role. -/
theorem C1_dept_action_allow_iff_grant_or_admin (user : User) (d a : String)
    (hd : d ≠ "") (ha : a ≠ "") :
    checkDynamicPermission (some user) { departmentSlug := some d, action := some a } = true ↔
      ((∃ p ∈ dedupePermissions user.permissions, p.name = d ∧ p.action = a) ∨
       ∃ r ∈ user.roles, r.name = "admin") := by
  by_cases hadm : isAdmin (some user) = true
  · simp [checkDynamicPermission, hadm, (isAdmin_eq_true_iff user).mp hadm]
  · have hadm2 : isAdmin (some user) = false := by simpa using hadm
    have hadm3 := (isAdmin_eq_false_iff user).mp hadm2
    simp [checkDynamicPermission, hadm2, hadm3, optStrTruthy, optBoolTruthy, hd, ha,
          userPermissions, dedupePermissions, List.any_eq_true]

theorem C1_witness :
    checkDynamicPermission (some wStaff)
        { departmentSlug := some "cong-no", action := some "read" } = true ↔
      ((∃ p ∈ dedupePermissions wStaff.permissions, p.name = "cong-no" ∧ p.action = "read") ∨
       ∃ r ∈ wStaff.roles, r.name = "admin") :=
  C1_dept_action_allow_iff_grant_or_admin wStaff "cong-no" "read" (by decide) (by decide)

/-- C2: a user whose roles include the literal `admin` passes
`checkDynamicPermission` for every check object whatsoever — the admin test
precedes and bypasses every other clause. -/
theorem C2_admin_allows_any_check (user : User) (check : DynamicPermissionCheck)
    (h : ∃ r ∈ user.roles, r.name = "admin") :
    checkDynamicPermission (some user) check = true := by
  have hadm : isAdmin (some user) = true := (isAdmin_eq_true_iff user).mpr h
  simp [checkDynamicPermission, hadm]

theorem C2_witness :
    checkDynamicPermission (some wAdmin)
      { departmentSlug := some "cong-no", action := some "delete",
        requireAdmin := some true, requireManager := some true,
        requireSpecificRole := some "super", requireAnyRole := some [] } = true :=
  C2_admin_allows_any_check wAdmin
    { departmentSlug := some "cong-no", action := some "delete",
      requireAdmin := some true, requireManager := some true,
      requireSpecificRole := some "super", requireAnyRole := some [] }
    (by decide)

/-- C10: a check that sets `action` alone (no `departmentSlug`, no role
requirements) is allowed for every authenticated user: both grant-checking
branches require a truthy `departmentSlug`, so evaluation falls through to
the default allow. -/
theorem C10_action_only_default_allow (user : User) (a : String) :
    checkDynamicPermission (some user) { action := some a } = true := by
  by_cases hadm : isAdmin (some user) = true
  · simp [checkDynamicPermission, hadm]
  · have hadm2 : isAdmin (some user) = false := by simpa using hadm
    simp [checkDynamicPermission, hadm2, optStrTruthy, optBoolTruthy]

/-- C9 counterexample: the two evaluators disagree on the pair
`("cong-no", "")`.  For a non-admin user with an explicit `cong-no`
membership and no grants, `checkPermission` searches the (empty) grant set
and denies, while `checkDynamicPermission` sees a falsy `action`, falls
into its department-only branch and allows on membership. -/
theorem C9_counterexample :
    checkPermission (some wStaffDept) "cong-no" "" = false ∧
    checkDynamicPermission (some wStaffDept)
      { departmentSlug := some "cong-no", action := some "" } = true := by decide

/-- C9 amended: for every user and every pair of non-empty strings the two
evaluators agree, and the common result is: false for an absent user, true
for an admin, and otherwise true exactly when the deduplicated grant set
holds an entry matching `(departmentSlug, action)` — the role list computed
inside `checkPermission` never influences the result. -/
theorem C9_legacy_matches_dynamic_on_nonempty (u : Option User) (d a : String)
    (hd : d ≠ "") (ha : a ≠ "") :
    checkPermission u d a =
      checkDynamicPermission u { departmentSlug := some d, action := some a } ∧
    (checkPermission u d a = true ↔
      ∃ user, u = some user ∧
        ((∃ r ∈ user.roles, r.name = "admin") ∨
         ∃ p ∈ dedupePermissions user.permissions, p.name = d ∧ p.action = a)) := by
  cases u with
  | none => simp [checkPermission, checkDynamicPermission]
  | some user =>
    by_cases h : ∃ r ∈ user.roles, r.name = "admin"
    · have h1 : user.roles.any (fun r => r.name == "admin") = true := by
        simpa [List.any_eq_true] using h
      have h2 : isAdmin (some user) = true := (isAdmin_eq_true_iff user).mpr h
      simp [checkPermission, checkDynamicPermission, h1, h2, h]
    · have h1 : user.roles.any (fun r => r.name == "admin") = false := by
        simpa [List.any_eq_true] using h
      have h2 : isAdmin (some user) = false := (isAdmin_eq_false_iff user).mpr h
      simp [checkPermission, checkDynamicPermission, h1, h2, h, optStrTruthy,
            optBoolTruthy, hd, ha, userPermissions, dedupePermissions, List.any_eq_true]

theorem C9_witness :
    (checkPermission (some wStaff) "cong-no" "read" =
      checkDynamicPermission (some wStaff)
        { departmentSlug := some "cong-no", action := some "read" }) ∧
    (checkPermission (some wStaff) "cong-no" "read" = true ↔
      ∃ user, some wStaff = some user ∧
        ((∃ r ∈ user.roles, r.name = "admin") ∨
         ∃ p ∈ dedupePermissions user.permissions, p.name = "cong-no" ∧ p.action = "read")) :=
  C9_legacy_matches_dynamic_on_nonempty (some wStaff) "cong-no" "read" (by decide) (by decide)

theorem dedupeAux_sublist (seen : List String) (ps : List Permission) :
    (dedupeAux seen ps).Sublist ps := by
  induction ps generalizing seen with
  | nil => simp [dedupeAux]
  | cons p rest ih =>
    rw [dedupeAux]
    split
    · exact (ih seen).trans (List.sublist_cons_self p rest)
    · exact (ih (permKey p :: seen)).cons₂ p

theorem mem_key_dedupeAux (seen : List String) (ps : List Permission) (k : String) :
    k ∈ (dedupeAux seen ps).map permKey ↔ k ∈ ps.map permKey ∧ k ∉ seen := by
  induction ps generalizing seen with
  | nil => simp [dedupeAux]
  | cons p rest ih =>
    rw [dedupeAux]
    by_cases hp : seen.contains (permKey p) = true
    · have hpm : permKey p ∈ seen := by simpa using hp
      rw [if_pos hp, ih]
      simp only [List.map_cons, List.mem_cons]
      constructor
      · rintro ⟨hk, hs⟩
        exact ⟨Or.inr hk, hs⟩
      · rintro ⟨hk | hk, hs⟩
        · exact absurd (hk ▸ hpm) hs
        · exact ⟨hk, hs⟩
    · have hpn : permKey p ∉ seen := by simpa using hp
      rw [if_neg hp]
      simp only [List.map_cons, List.mem_cons, ih (permKey p :: seen)]
      constructor
      · rintro (rfl | ⟨hk, hs⟩)
        · exact ⟨Or.inl rfl, hpn⟩
        · exact ⟨Or.inr hk, fun hmem => hs (Or.inr hmem)⟩
      · rintro ⟨hk | hk, hs⟩
        · exact Or.inl hk
        · by_cases hkp : k = permKey p
          · exact Or.inl hkp
          · refine Or.inr ⟨hk, fun hmem => ?_⟩
            rcases hmem with h | h
            · exact hkp h
            · exact hs h

theorem nodup_key_dedupeAux (seen : List String) (ps : List Permission) :
    ((dedupeAux seen ps).map permKey).Nodup := by
  induction ps generalizing seen with
  | nil => simp [dedupeAux]
  | cons p rest ih =>
    rw [dedupeAux]
    split
    · exact ih seen
    · simp only [List.map_cons, List.nodup_cons]
      refine ⟨fun hmem => ?_, ih (permKey p :: seen)⟩
      exact ((mem_key_dedupeAux _ _ _).mp hmem).2 (List.mem_cons_self _ _)

theorem find?_dedupeAux (seen : List String) (ps : List Permission) (k : String) :
    (dedupeAux seen ps).find? (fun p => permKey p == k) =
      if k ∈ seen then none else ps.find? (fun p => permKey p == k) := by
  induction ps generalizing seen with
  | nil => simp [dedupeAux]
  | cons p rest ih =>
    rw [dedupeAux]
    by_cases hp : seen.contains (permKey p) = true
    · have hpm : permKey p ∈ seen := by simpa using hp
      rw [if_pos hp, ih]
      by_cases hk : k ∈ seen
      · simp [hk]
      · have hne : (permKey p == k) = false := by
          refine beq_eq_false_iff_ne.mpr (fun he => hk (he ▸ hpm))
        simp [hk, List.find?_cons, hne]
    · have hpn : permKey p ∉ seen := by simpa using hp
      rw [if_neg hp]
      by_cases hpk : (permKey p == k) = true
      · have heq : permKey p = k := by simpa using hpk
        have hkn : k ∉ seen := heq ▸ hpn
        simp [List.find?_cons, hpk, hkn]
      · have hpk2 : (permKey p == k) = false := by simpa using hpk
        have hne : k ≠ permKey p := fun he => by
          exact absurd (beq_iff_eq.mpr he.symm) (by simp [hpk2])
        rw [List.find?_cons, hpk2]
        simp only [cond_false]
        rw [ih (permKey p :: seen)]
        by_cases hk : k ∈ seen
        · simp [hk, List.mem_cons]
        · have : k ∉ permKey p :: seen := by
            intro hmem
            rcases List.mem_cons.mp hmem with h | h
            · exact hne h
            · exact hk h
          simp [hk, this, List.find?_cons, hpk2]

/-- C6: the derived permission snapshot deduplicates `user.permissions` by
the `name:action` key: its key list has no duplicates, it is a sublist of
the original (entries kept in first-seen order), and for every key the
retained entry is exactly the first entry of the original list carrying
that key. -/
theorem C6_snapshot_dedup_first_seen (user : User) :
    ((userPermissions (some user)).map permKey).Nodup ∧
    (userPermissions (some user)).Sublist user.permissions ∧
    ∀ k : String,
      (userPermissions (some user)).find? (fun p => permKey p == k) =
        user.permissions.find? (fun p => permKey p == k) := by
  refine ⟨nodup_key_dedupeAux [] user.permissions,
          dedupeAux_sublist [] user.permissions, fun k => ?_⟩
  have := find?_dedupeAux [] user.permissions k
  simpa [userPermissions, dedupePermissions] using this

theorem mem_dedupSeen (seen xs : List String) (s : String) :
    s ∈ dedupSeen seen xs ↔ s ∈ xs ∧ s ∉ seen := by
  induction xs generalizing seen with
  | nil => simp [dedupSeen]
  | cons x rest ih =>
    rw [dedupSeen]
    by_cases hx : seen.contains x = true
    · have hxm : x ∈ seen := by simpa using hx
      rw [if_pos hx, ih]
      simp only [List.mem_cons]
      constructor
      · rintro ⟨h1, h2⟩
        exact ⟨Or.inr h1, h2⟩
      · rintro ⟨h1 | h1, h2⟩
        · exact absurd (h1 ▸ hxm) h2
        · exact ⟨h1, h2⟩
    · have hxn : x ∉ seen := by simpa using hx
      rw [if_neg hx]
      simp only [List.mem_cons, ih (x :: seen)]
      constructor
      · rintro (rfl | ⟨h1, h2⟩)
        · exact ⟨Or.inl rfl, hxn⟩
        · exact ⟨Or.inr h1, fun hmem => h2 (Or.inr hmem)⟩
      · rintro ⟨h1 | h1, h2⟩
        · exact Or.inl h1
        · by_cases hsx : s = x
          · exact Or.inl hsx
          · refine Or.inr ⟨h1, fun hmem => ?_⟩
            rcases hmem with h | h
            · exact hsx h
            · exact h2 h

theorem nodup_dedupSeen (seen xs : List String) : (dedupSeen seen xs).Nodup := by
  induction xs generalizing seen with
  | nil => simp [dedupSeen]
  | cons x rest ih =>
    rw [dedupSeen]
    split
    · exact ih seen
    · refine List.nodup_cons.mpr ⟨fun hmem => ?_, ih (x :: seen)⟩
      exact ((mem_dedupSeen _ _ _).mp hmem).2 (List.mem_cons_self _ _)

/-- C7: `getAccessibleDepartments()` has no duplicates and contains exactly
the union of the explicit department slugs and the second capture group of
`^(manager|user)-(.+)$` over the role names. -/
theorem C7_accessible_departments_union (user : User) :
    (getAccessibleDepartments (some user)).Nodup ∧
    ∀ s : String,
      s ∈ getAccessibleDepartments (some user) ↔
        ((∃ d ∈ user.departments, d.slug = s) ∨
         ∃ r ∈ user.roles, roleDeptMatch r.name = some s) := by
  refine ⟨nodup_dedupSeen _ _, fun s => ?_⟩
  rw [getAccessibleDepartments, mem_dedupSeen]
  simp [userDepartments, userRoles]

/-- C4 counterexample: a token that decodes to a payload with no `exp`
field fails the guard's validity check (`isValid` keeps its initial
`false`), and the guard sends the request down the invalid-session path —
here, with no working refresh, a redirect to login.  The claim stated the
guard treats such a token as valid. -/
theorem C4_counterexample :
    tokenIsValid 1700000000000
      (TokenState.decoded
        { exp := JsonField.absent, roles := some ["user-cong-no"], zaloLinkStatus := some 0 }) =
      false ∧
    middleware navOpen
      { pathname := "/statistic/debts",
        token := TokenState.decoded
          { exp := JsonField.absent, roles := some ["user-cong-no"], zaloLinkStatus := some 0 },
        nowMs := 1700000000000, refreshOk := false } = GuardDecision.redirectLogin := by decide

/-- C4 amended: a token that decodes successfully but whose payload lacks
`exp` is treated as invalid by the route guard — the guard's validity flag
only becomes true when `exp` is present, numeric and positive, so the
missing-`exp` token does not pass the guard's validity check.  (The
client-side `getUserFromToken` in `lib/auth.ts`, which the spec's wording
matches, is the decoder that treats such a token as valid.) -/
theorem C4_missing_exp_is_invalid (roles : Option (List String))
    (zls : Option Int) (nowMs : Int) :
    tokenIsValid nowMs
      (TokenState.decoded { exp := JsonField.absent, roles := roles, zaloLinkStatus := zls }) =
      false := rfl

/-- C3 counterexample: a request to the public path `/login` carrying an
expired token (exp = 1 s, now = 2 000 000 ms) with a working refresh token
is passed through by the public-path branch: the guard neither attempts the
refresh (which would set fresh cookies) nor redirects, contradicting the
claim's universal quantification over requests. -/
theorem C3_counterexample :
    middleware navOpen
      { pathname := "/login",
        token := TokenState.decoded
          { exp := JsonField.num 1, roles := none, zaloLinkStatus := none },
        nowMs := 2000000, refreshOk := true } = GuardDecision.next ∧
    GuardDecision.next ≠ GuardDecision.nextWithRefreshedCookies ∧
    GuardDecision.next ≠ GuardDecision.redirectLogin := by decide

/-- C3 amended: for every request to a path other than the public login
path whose token decodes to a numeric `exp` with `exp` ≤ current time (in
seconds, i.e. `exp * 1000 ≤ Date.now()`), the guard treats the session as
invalid and attempts one token refresh — continuing the request (with
fresh cookies) on success and redirecting to login on failure.  A request
to `/login` itself is passed through by the earlier public-path branch. -/
theorem C3_expired_session_refresh_or_login (nav : List NavGroup) (pathname : String)
    (n : Int) (roles : Option (List String)) (zls : Option Int)
    (nowMs : Int) (refreshOk : Bool)
    (hexp : n * 1000 ≤ nowMs) (hpath : pathname ≠ "/login") :
    middleware nav
      { pathname := pathname,
        token := TokenState.decoded { exp := JsonField.num n, roles := roles, zaloLinkStatus := zls },
        nowMs := nowMs, refreshOk := refreshOk } =
      if refreshOk then GuardDecision.nextWithRefreshedCookies
      else GuardDecision.redirectLogin := by
  have hval : tokenIsValid nowMs
      (TokenState.decoded { exp := JsonField.num n, roles := roles, zaloLinkStatus := zls }) =
      false := by
    show (if (n != 0 && decide (0 < n)) = true
          then decide (nowMs < n * 1000) else false) = false
    split
    · exact decide_eq_false (not_lt.mpr hexp)
    · rfl
  simp [middleware, hval, hpath]

theorem C3_witness :
    middleware navOpen
      { pathname := "/statistic/debts",
        token := TokenState.decoded
          { exp := JsonField.num 1700000000, roles := none, zaloLinkStatus := none },
        nowMs := 1800000000000, refreshOk := false } =
      if false then GuardDecision.nextWithRefreshedCookies
      else GuardDecision.redirectLogin :=
  C3_expired_session_refresh_or_login navOpen "/statistic/debts" 1700000000 none none
    1800000000000 false (by decide) (by decide)

/-- C5: with a valid token whose payload carries `zaloLinkStatus = 2`, the
guard redirects every path except the account-linking path to the
account-linking path, and lets a request already there continue. -/
theorem C5_link_error_forces_link_page (nav : List NavGroup) (pathname : String)
    (n : Int) (roles : Option (List String)) (nowMs : Int) (refreshOk : Bool)
    (h1 : 0 < n) (h2 : nowMs < n * 1000) :
    middleware nav
      { pathname := pathname,
        token := TokenState.decoded
          { exp := JsonField.num n, roles := roles, zaloLinkStatus := some 2 },
        nowMs := nowMs, refreshOk := refreshOk } =
      if pathname = zaloLinkPath then GuardDecision.next
      else GuardDecision.redirect zaloLinkPath := by
  have hval : tokenIsValid nowMs
      (TokenState.decoded
        { exp := JsonField.num n, roles := roles, zaloLinkStatus := some 2 }) = true := by
    show (if (n != 0 && decide (0 < n)) = true
          then decide (nowMs < n * 1000) else false) = true
    have hc : (n != 0 && decide (0 < n)) = true := by simp [h1, h1.ne']
    rw [if_pos hc]
    exact decide_eq_true h2
  by_cases hp : pathname = zaloLinkPath
  · simp [middleware, hval, decodeZls, hp]
  · simp [middleware, hval, decodeZls, hp]

theorem C5_witness :
    middleware navOpen
      { pathname := "/statistic/debts",
        token := TokenState.decoded
          { exp := JsonField.num 1700000000, roles := some ["staff"], zaloLinkStatus := some 2 },
        nowMs := 1000, refreshOk := false } =
      if "/statistic/debts" = zaloLinkPath then GuardDecision.next
      else GuardDecision.redirect zaloLinkPath :=
  C5_link_error_forces_link_page navOpen "/statistic/debts" 1700000000 (some ["staff"])
    1000 false (by decide) (by decide)

theorem firstAccessibleInItems_mem (uRoles : List String) (items : List NavItem) (u : String)
    (h : firstAccessibleInItems uRoles items = some u) :
    u ∈ items.map (fun item => item.url) := by
  induction items with
  | nil => simp [firstAccessibleInItems] at h
  | cons item rest ih =>
    rw [firstAccessibleInItems] at h
    split at h
    · cases h
      simp
    · simp [ih h]

theorem getFirstAccessibleUrl_mem (nav : List NavGroup) (uRoles : List String) (u : String)
    (h : getFirstAccessibleUrl nav uRoles = some u) : u ∈ allNavUrls nav := by
  induction nav with
  | nil => simp [getFirstAccessibleUrl] at h
  | cons g rest ih =>
    rw [show allNavUrls (g :: rest) =
          g.items.map (fun item => item.url) ++ allNavUrls rest from rfl,
        List.mem_append]
    rw [getFirstAccessibleUrl] at h
    cases hg : firstAccessibleInItems uRoles g.items with
    | some v =>
      rw [hg] at h
      cases h
      exact Or.inl (firstAccessibleInItems_mem _ _ _ hg)
    | none =>
      rw [hg] at h
      exact Or.inr (ih h)

theorem truthyUrl_getFirst (nav : List NavGroup) (uRoles : List String)
    (hurls : "" ∉ allNavUrls nav) :
    truthyUrl (getFirstAccessibleUrl nav uRoles) = getFirstAccessibleUrl nav uRoles := by
  cases hg : getFirstAccessibleUrl nav uRoles with
  | none => rfl
  | some u =>
    have hu : u ≠ "" := fun he => hurls (he ▸ getFirstAccessibleUrl_mem nav uRoles u hg)
    simp [truthyUrl, hu]

/-- C8 counterexample: a valid session whose token carries the link-error
sentinel (`zaloLinkStatus = 2`) and requests a route-table path it cannot
access is redirected to the account-linking path by the earlier link-status
override, not to the first accessible item (`/statistic/debts`) as the
claim, quantified over every valid session, demands. -/
theorem C8_counterexample :
    ("/debts/import" ∈ allNavUrls navOpen ∧
     isAccessible navOpen ["staff"] "/debts/import" = false ∧
     getFirstAccessibleUrl navOpen ["staff"] = some "/statistic/debts") ∧
    middleware navOpen
      { pathname := "/debts/import",
        token := TokenState.decoded
          { exp := JsonField.num 2, roles := some ["staff"], zaloLinkStatus := some 2 },
        nowMs := 1000, refreshOk := false } = GuardDecision.redirect zaloLinkPath ∧
    GuardDecision.redirect zaloLinkPath ≠ GuardDecision.redirect "/statistic/debts" := by decide

/-- C8 amended: for every valid session that actually reaches the guard's
authorization stage — link status not the error sentinel, path neither the
account-linking path nor the public login path — requesting a route-table
path (of a table with non-empty urls) that is inaccessible under the
session's roles, the guard redirects to the first accessible item's url
when one exists and falls through to a plain continue when none does. -/
theorem C8_denied_path_first_accessible_or_continue (nav : List NavGroup)
    (pathname : String) (n : Int) (roles : List String) (zls : Option Int)
    (nowMs : Int) (refreshOk : Bool)
    (h1 : 0 < n) (h2 : nowMs < n * 1000)
    (hz : zls.getD 0 ≠ 2)
    (hlink : pathname ≠ zaloLinkPath) (hlogin : pathname ≠ "/login")
    (hurls : "" ∉ allNavUrls nav)
    (hmem : pathname ∈ allNavUrls nav)
    (hacc : isAccessible nav roles pathname = false) :
    middleware nav
      { pathname := pathname,
        token := TokenState.decoded
          { exp := JsonField.num n, roles := some roles, zaloLinkStatus := zls },
        nowMs := nowMs, refreshOk := refreshOk } =
      match getFirstAccessibleUrl nav roles with
      | some u => GuardDecision.redirect u
      | none => GuardDecision.next := by
  have hval : tokenIsValid nowMs
      (TokenState.decoded
        { exp := JsonField.num n, roles := some roles, zaloLinkStatus := zls }) = true := by
    show (if (n != 0 && decide (0 < n)) = true
          then decide (nowMs < n * 1000) else false) = true
    have hc : (n != 0 && decide (0 < n)) = true := by simp [h1, h1.ne']
    rw [if_pos hc]
    exact decide_eq_true h2
  have hcont : (allNavUrls nav).contains pathname = true := by simpa using hmem
  cases hg : getFirstAccessibleUrl nav roles with
  | none =>
    simp [middleware, hval, decodeRoles, decodeZls, hz, hlink, hlogin, hg, truthyUrl,
          hcont, hacc]
  | some u =>
    have htr : truthyUrl (getFirstAccessibleUrl nav roles) = some u := by
      rw [truthyUrl_getFirst nav roles hurls, hg]
    rw [hg] at htr
    have hrl : ("/" : String) ≠ zaloLinkPath := by decide
    have hdl : ("/dashboard" : String) ≠ zaloLinkPath := by decide
    by_cases hroot : pathname = "/"
    · simp [middleware, hval, decodeRoles, decodeZls, hz, hlink, hlogin, hg, htr,
            hcont, hmem, hacc, hroot, hrl]
    · by_cases hdash : pathname = "/dashboard"
      · simp [middleware, hval, decodeRoles, decodeZls, hz, hlink, hlogin, hg, htr,
              hcont, hmem, hacc, hdash, hdl]
      · simp [middleware, hval, decodeRoles, decodeZls, hz, hlink, hlogin, hg, htr,
              hcont, hmem, hacc, hroot, hdash]

theorem C8_witness :
    middleware navOpen
      { pathname := "/debts/import",
        token := TokenState.decoded
          { exp := JsonField.num 2, roles := some ["staff"], zaloLinkStatus := none },
        nowMs := 1000, refreshOk := false } =
      match getFirstAccessibleUrl navOpen ["staff"] with
      | some u => GuardDecision.redirect u
      | none => GuardDecision.next :=
  C8_denied_path_first_accessible_or_continue navOpen "/debts/import" 2 ["staff"] none
    1000 false (by decide) (by decide) (by decide) (by decide) (by decide) (by decide)
    (by decide) (by decide)

end NKC
